import Mathlib

/-!
Shallow embedding of the rss-reader program (src/main.rs).

The program reads a list of feed URLs from a sqlite table, fetches each
feed body, and runs a streaming parser (`fetch_articles`) over the
quick_xml event stream, assembling `Article` records.

Modelling conventions:
* The quick_xml event stream is modelled as a `List XmlEvent`; the
  `Event::Eof` case that breaks the Rust loop corresponds to the end of
  the list.  `XmlEvent.errEvent` models `read_event_into` returning
  `Err(_)`, which the Rust `match` sends to the catch-all `_ => ()` arm.
* External library behaviour (chrono `DateTime::parse_from_rfc2822`
  composed with the local-offset conversion, and `url::Url::parse`) is
  not code of this repository; it is passed in as an explicit `Env` of
  functions, so every theorem about `Article.update_field` and the event
  loop holds for an arbitrary environment.
* The sqlite `feeds` table is modelled as an optional schema flag
  (whether the table was created with `PRIMARY KEY`) plus the ordered
  list of rows, with `INSERT` failing with error code 19 exactly when a
  `PRIMARY KEY` uniqueness constraint is violated.
-/

namespace RssReader

/-- `enum Tag` from src/main.rs (derives `PartialEq`). -/
inductive Tag where
  | Item : Tag
  | Title : Tag
  | Description : Tag
  | PubDate : Tag
  | Link : Tag
  | Other : String → Tag
deriving DecidableEq, Repr

/-- `impl FromStr for Tag` (src/main.rs lines 20-33).  The Rust function
returns `Result<Tag, ()>` but every branch is `Ok`, so the embedding is the
total function underneath. -/
def Tag.from_str (s : String) : Tag :=
  match s with
  | "item" => Tag.Item
  | "title" => Tag.Title
  | "description" => Tag.Description
  | "pubDate" => Tag.PubDate
  | "link" => Tag.Link
  | other => Tag.Other other

/-- The external-library environment of `Article::update_field`:
`parse_from_rfc2822` models `chrono::DateTime::parse_from_rfc2822` (returning
`Option` for `Result`), `with_local_timezone` models
`pub_date.with_timezone(Local::now().offset())`, and `url_parse` models
`url::Url::parse`.  `D` is the datetime type, `U` the URL type. -/
structure Env (D U : Type) where
  parse_from_rfc2822 : String → Option D
  with_local_timezone : D → D
  url_parse : String → Option U

/-- `struct Article` (src/main.rs lines 36-42). -/
structure Article (D U : Type) where
  title : String
  description : String
  pub_date : Option D
  link : Option U
deriving DecidableEq, Repr

/-- `Article::new` (src/main.rs lines 45-52). -/
def Article.new (D U : Type) : Article D U :=
  { title := "", description := "", pub_date := none, link := none }

/-- `Article::update_field` (src/main.rs lines 54-69). -/
def Article.update_field {D U : Type} (env : Env D U) (a : Article D U)
    (tag : Tag) (data : String) : Article D U :=
  match tag with
  | Tag.Title => { a with title := data }
  | Tag.Description => { a with description := data }
  | Tag.PubDate =>
      match env.parse_from_rfc2822 data with
      | some pub_date =>
          { a with pub_date := some (env.with_local_timezone pub_date) }
      | none => a
  | Tag.Link =>
      match env.url_parse data with
      | some link => { a with link := some link }
      | none => a
  | _ => a

/-- One result of `reader.read_event_into(&mut buf)` as matched by the loop
in `fetch_articles` (src/main.rs lines 96-129).  `errEvent` is `Err(_)`;
`otherEvent` covers every remaining `Ok` constructor hit by the catch-all
arm (`Empty`, `Comment`, `Decl`, `PI`, `DocType`).  Text and CData carry
their already-decoded content.  `Event::Eof` ends the stream, so it is the
end of the list. -/
inductive XmlEvent where
  | start : String → XmlEvent
  | endTag : String → XmlEvent
  | text : String → XmlEvent
  | cdata : String → XmlEvent
  | errEvent : XmlEvent
  | otherEvent : XmlEvent
deriving DecidableEq, Repr

/-- Whether an event is an element-close (`Event::End`). -/
def XmlEvent.isEnd : XmlEvent → Bool
  | XmlEvent.endTag _ => true
  | _ => false

/-- The mutable state of the `fetch_articles` loop: `tag_stack` (top =
head, matching `Vec::push`/`pop`/`last` at the back), `current_item`, and
the output vector `articles`. -/
structure State (D U : Type) where
  tag_stack : List Tag
  current_item : Article D U
  articles : List (Article D U)
deriving DecidableEq, Repr

/-- One iteration of the `loop` in `fetch_articles` (src/main.rs lines
96-129) on a single event. -/
def step {D U : Type} (env : Env D U) (s : State D U) (e : XmlEvent) :
    State D U :=
  match e with
  | XmlEvent.start name =>
      let tag := Tag.from_str name
      let s' := if tag = Tag.Item
        then { s with current_item := Article.new D U }
        else s
      { s' with tag_stack := tag :: s'.tag_stack }
  | XmlEvent.endTag _ =>
      match s.tag_stack with
      | [] => s
      | tag :: rest =>
          if tag = Tag.Item then
            { s with tag_stack := rest,
                     articles := s.articles ++ [s.current_item] }
          else
            { s with tag_stack := rest }
  | XmlEvent.text t =>
      match s.tag_stack with
      | [] => s
      | tag :: _ =>
          { s with current_item := Article.update_field env s.current_item tag t }
  | XmlEvent.cdata t =>
      match s.tag_stack with
      | [] => s
      | tag :: _ =>
          { s with current_item := Article.update_field env s.current_item tag t }
  | XmlEvent.errEvent => s
  | XmlEvent.otherEvent => s

/-- Running the event loop over a whole event stream from a given state. -/
def runevents {D U : Type} (env : Env D U) (events : List XmlEvent)
    (s : State D U) : State D U :=
  events.foldl (step env) s

/-- `fetch_articles` (src/main.rs lines 82-130) restricted to its parsing
part: the transport (`reqwest::blocking::get(url).text()`) is out of scope
and the decoded event stream stands for the body.  The Rust function
appends into `&mut Vec<Article>`; the embedding takes the prior vector and
returns the extended one. -/
def fetch_articles {D U : Type} (env : Env D U) (events : List XmlEvent)
    (articles : List (Article D U)) : List (Article D U) :=
  (runevents env events
    { tag_stack := [], current_item := Article.new D U,
      articles := articles }).articles

/-- The initial state of the `fetch_articles` loop, holding the previously
accumulated output vector. -/
def initState (D U : Type) (articles : List (Article D U)) : State D U :=
  { tag_stack := [], current_item := Article.new D U, articles := articles }

/-- A concrete environment instantiating the external libraries for
witnesses: dates are `Nat` (one fixed recognized RFC-2822 string), the
local-offset conversion adds 2, and URLs are `Nat` (two fixed recognized
URL strings). -/
def testEnv : Env Nat Nat :=
  { parse_from_rfc2822 := fun s =>
      if s = "Mon, 01 Jan 2024 00:00:00 +0000" then some 100 else none,
    with_local_timezone := fun d => d + 2,
    url_parse := fun s =>
      if s = "https://example.com/a" then some 7
      else if s = "https://example.com/b" then some 8
      else none }

/-- A well-formed markup node: an element (with its name and children), a
text chunk, a CDATA chunk, or some other markup item (comment, processing
instruction, ...).  A well-formed event sequence is the serialization of a
list of such nodes, in which every element-close has its matching open. -/
inductive Node where
  | element : String → List Node → Node
  | textNode : String → Node
  | cdataNode : String → Node
  | miscNode : Node
deriving Repr

mutual

/-- Serialize one well-formed node into the event stream it produces: an
element contributes its open event, its children's events, then its
matching close event. -/
def serializeNode : Node → List XmlEvent
  | Node.element name children =>
      XmlEvent.start name :: (serializeForest children ++ [XmlEvent.endTag name])
  | Node.textNode t => [XmlEvent.text t]
  | Node.cdataNode t => [XmlEvent.cdata t]
  | Node.miscNode => [XmlEvent.otherEvent]

/-- Serialize a list of sibling nodes in order. -/
def serializeForest : List Node → List XmlEvent
  | [] => []
  | n :: ns => serializeNode n ++ serializeForest ns

end

mutual

/-- The number of item-boundary elements (elements routed to `Tag.Item` by
the Field Router, i.e. named "item") in one node, at any depth.  In a
well-formed sequence this is exactly the number of item-boundary close
events whose matching open event occurs in the sequence. -/
def countItemsNode : Node → Nat
  | Node.element name children =>
      (if name = "item" then 1 else 0) + countItemsForest children
  | Node.textNode _ => 0
  | Node.cdataNode _ => 0
  | Node.miscNode => 0

/-- The number of item-boundary elements in a forest, at any depth. -/
def countItemsForest : List Node → Nat
  | [] => 0
  | n :: ns => countItemsNode n + countItemsForest ns

end

/-! ### The sqlite feed store (`read_feeds` and the `add`/`remove` branches
of `main`) -/

/-- The `feeds` table of reader.db: `schema = none` when the table does not
exist yet, `some true` when it was created by `read_feeds`'s
`CREATE TABLE IF NOT EXISTS feeds (url TEXT PRIMARY KEY)`, `some false`
when it was created by the `add`/`remove` branches'
`CREATE TABLE IF NOT EXISTS feeds (url TEXT)`.  `rows` is the ordered list
of stored url strings. -/
structure FeedsDb where
  schema : Option Bool
  rows : List String
deriving DecidableEq, Repr

/-- A database with no `feeds` table (fresh reader.db). -/
def FeedsDb.fresh : FeedsDb := { schema := none, rows := [] }

/-- `CREATE TABLE IF NOT EXISTS feeds (...)`: creates the table with the
given primary-key flag only when it does not exist yet. -/
def FeedsDb.createTableIfNotExists (db : FeedsDb) (pk : Bool) : FeedsDb :=
  match db.schema with
  | none => { schema := some pk, rows := [] }
  | some _ => db

/-- `INSERT INTO feeds VALUES ('{url}')`: `Except.error 19` models the
sqlite constraint-violation error (code 19), raised exactly when the table
has a `PRIMARY KEY` on url and the value is already present.  Inserting
into a missing table is a non-19 error, modelled as error code 1. -/
def FeedsDb.insert (db : FeedsDb) (u : String) : Except Nat FeedsDb :=
  match db.schema with
  | none => Except.error 1
  | some pk =>
      if pk ∧ u ∈ db.rows then Except.error 19
      else Except.ok { db with rows := db.rows ++ [u] }

/-- The `add` branch of `main` (src/main.rs lines 165-183), after the
`Url::parse(&value).expect(..)` guard: create the table (without a primary
key) if missing, run the `INSERT`, and swallow exactly error code 19; any
other error is `result.unwrap()`, a panic, modelled as `none`. -/
def addCommand (db : FeedsDb) (value : String) : Option FeedsDb :=
  let db' := db.createTableIfNotExists false
  match db'.insert value with
  | Except.ok db'' => some db''
  | Except.error 19 => some db'
  | Except.error _ => none

/-- `read_feeds` (src/main.rs lines 132-143) restricted to its effect on
the store: create the table with `PRIMARY KEY` if missing, and return the
stored url strings together with the resulting database.  (The
`Url::parse(..).expect("Invalid URL")` per row is identity on the stored
strings for our purposes.) -/
def read_feeds (db : FeedsDb) : FeedsDb × List String :=
  let db' := db.createTableIfNotExists true
  (db', db'.rows)

/-! ### Basic equations of the event loop -/

theorem from_str_eq_item_iff (s : String) :
    Tag.from_str s = Tag.Item ↔ s = "item" := by
  constructor
  · intro h
    unfold Tag.from_str at h
    split at h <;> simp_all
  · intro h
    subst h
    rfl

theorem runevents_nil {D U : Type} (env : Env D U) (s : State D U) :
    runevents env [] s = s := rfl

theorem runevents_cons {D U : Type} (env : Env D U) (e : XmlEvent)
    (es : List XmlEvent) (s : State D U) :
    runevents env (e :: es) s = runevents env es (step env s e) := rfl

theorem runevents_append {D U : Type} (env : Env D U)
    (l₁ l₂ : List XmlEvent) (s : State D U) :
    runevents env (l₁ ++ l₂) s = runevents env l₂ (runevents env l₁ s) := by
  simp [runevents, List.foldl_append]

theorem step_start_eq {D U : Type} (env : Env D U) (s : State D U)
    (name : String) :
    step env s (XmlEvent.start name) =
      { tag_stack := Tag.from_str name :: s.tag_stack,
        current_item :=
          if Tag.from_str name = Tag.Item then Article.new D U
          else s.current_item,
        articles := s.articles } := by
  by_cases h : Tag.from_str name = Tag.Item <;> simp [step, h]

theorem step_endTag_nil {D U : Type} (env : Env D U) (s : State D U)
    (name : String) (h : s.tag_stack = []) :
    step env s (XmlEvent.endTag name) = s := by
  simp [step, h]

theorem step_endTag_cons {D U : Type} (env : Env D U) (s : State D U)
    (name : String) (tag : Tag) (rest : List Tag)
    (h : s.tag_stack = tag :: rest) :
    step env s (XmlEvent.endTag name) =
      if tag = Tag.Item then
        { s with tag_stack := rest, articles := s.articles ++ [s.current_item] }
      else
        { s with tag_stack := rest } := by
  by_cases hi : tag = Tag.Item <;> simp [step, h, hi]

theorem step_text_nil {D U : Type} (env : Env D U) (s : State D U)
    (t : String) (h : s.tag_stack = []) :
    step env s (XmlEvent.text t) = s := by
  simp [step, h]

theorem step_text_cons {D U : Type} (env : Env D U) (s : State D U)
    (t : String) (tag : Tag) (rest : List Tag)
    (h : s.tag_stack = tag :: rest) :
    step env s (XmlEvent.text t) =
      { s with current_item := Article.update_field env s.current_item tag t } := by
  simp [step, h]

theorem step_cdata_eq_step_text {D U : Type} (env : Env D U) (s : State D U)
    (t : String) :
    step env s (XmlEvent.cdata t) = step env s (XmlEvent.text t) := by
  cases h : s.tag_stack <;> simp [step, h]

theorem step_text_tag_stack {D U : Type} (env : Env D U) (s : State D U)
    (t : String) : (step env s (XmlEvent.text t)).tag_stack = s.tag_stack := by
  cases hs : s.tag_stack <;> simp [step, hs]

theorem step_text_articles {D U : Type} (env : Env D U) (s : State D U)
    (t : String) : (step env s (XmlEvent.text t)).articles = s.articles := by
  cases hs : s.tag_stack <;> simp [step, hs]

theorem step_tag_stack_of_not_end {D U : Type} (env : Env D U)
    (s : State D U) (e : XmlEvent) (ht : ∀ t, e ≠ XmlEvent.text t)
    (hc : ∀ t, e ≠ XmlEvent.cdata t) (hs : ∀ n, e ≠ XmlEvent.start n)
    (he : ∀ n, e ≠ XmlEvent.endTag n) :
    step env s e = s := by
  cases e with
  | start n => exact absurd rfl (hs n)
  | endTag n => exact absurd rfl (he n)
  | text t => exact absurd rfl (ht t)
  | cdata t => exact absurd rfl (hc t)
  | errEvent => rfl
  | otherEvent => rfl

theorem step_articles_of_not_end {D U : Type} (env : Env D U)
    (s : State D U) (e : XmlEvent) (h : e.isEnd = false) :
    (step env s e).articles = s.articles := by
  cases e with
  | start n => simp [step_start_eq]
  | endTag n => simp [XmlEvent.isEnd] at h
  | text t => cases hs : s.tag_stack <;> simp [step, hs]
  | cdata t => cases hs : s.tag_stack <;> simp [step, hs]
  | errEvent => rfl
  | otherEvent => rfl

/-! ### Behaviour of the loop on well-formed (serialized) input -/

mutual

theorem runevents_serializeNode {D U : Type} (env : Env D U) (n : Node)
    (s : State D U) :
    (runevents env (serializeNode n) s).tag_stack = s.tag_stack ∧
    (runevents env (serializeNode n) s).articles.length
      = s.articles.length + countItemsNode n := by
  cases n with
  | element name children =>
      have h₁ := runevents_serializeForest env children
        (step env s (XmlEvent.start name))
      have hstack : (step env s (XmlEvent.start name)).tag_stack
          = Tag.from_str name :: s.tag_stack := by rw [step_start_eq]
      have harts : (step env s (XmlEvent.start name)).articles = s.articles := by
        rw [step_start_eq]
      set s₂ := runevents env (serializeForest children)
        (step env s (XmlEvent.start name)) with hs₂
      have h₂ : s₂.tag_stack = Tag.from_str name :: s.tag_stack :=
        h₁.1.trans hstack
      have hlen : s₂.articles.length
          = s.articles.length + countItemsForest children := by
        rw [h₁.2, harts]
      have h₃ := step_endTag_cons env s₂ name (Tag.from_str name) s.tag_stack h₂
      rw [serializeNode, runevents_cons, runevents_append, ← hs₂,
        runevents_cons, runevents_nil, h₃]
      by_cases hi : Tag.from_str name = Tag.Item
      · have hname : name = "item" := (from_str_eq_item_iff name).mp hi
        rw [if_pos hi]
        refine ⟨rfl, ?_⟩
        simp only [countItemsNode, hname, reduceIte, List.length_append,
          List.length_cons, List.length_nil]
        omega
      · have hname : ¬ name = "item" := fun h => hi ((from_str_eq_item_iff name).mpr h)
        rw [if_neg hi]
        refine ⟨rfl, ?_⟩
        simp only [countItemsNode, hname, reduceIte, List.length_append,
          List.length_cons, List.length_nil, if_false, eq_self_iff_true]
        omega
  | textNode t =>
      simp [serializeNode, runevents_cons, runevents_nil, step_text_tag_stack,
        step_text_articles, countItemsNode]
  | cdataNode t =>
      simp [serializeNode, runevents_cons, runevents_nil,
        step_cdata_eq_step_text, step_text_tag_stack, step_text_articles,
        countItemsNode]
  | miscNode =>
      simp [serializeNode, runevents_cons, runevents_nil, step, countItemsNode]

theorem runevents_serializeForest {D U : Type} (env : Env D U) (f : List Node)
    (s : State D U) :
    (runevents env (serializeForest f) s).tag_stack = s.tag_stack ∧
    (runevents env (serializeForest f) s).articles.length
      = s.articles.length + countItemsForest f := by
  cases f with
  | nil => simp [serializeForest, runevents_nil, countItemsForest]
  | cons n ns =>
      have h₁ := runevents_serializeNode env n s
      have h₂ := runevents_serializeForest env ns (runevents env (serializeNode n) s)
      rw [serializeForest, runevents_append]
      refine ⟨h₂.1.trans h₁.1, ?_⟩
      rw [h₂.2, h₁.2, countItemsForest]
      omega

end

theorem runevents_articles_of_no_end {D U : Type} (env : Env D U)
    (es : List XmlEvent) (h : ∀ e ∈ es, e.isEnd = false) :
    ∀ s : State D U, (runevents env es s).articles = s.articles := by
  induction es with
  | nil => intro s; rfl
  | cons e es ih =>
      intro s
      rw [runevents_cons, ih (fun x hx => h x (List.mem_cons_of_mem e hx)),
        step_articles_of_not_end env s e (h e (List.mem_cons_self e es))]

theorem runevents_endTags_on_empty_stack {D U : Type} (env : Env D U)
    (names : List String) (s : State D U) (h : s.tag_stack = []) :
    runevents env (names.map XmlEvent.endTag) s = s := by
  induction names with
  | nil => rfl
  | cons n ns ih =>
      rw [List.map_cons, runevents_cons, step_endTag_nil env s n h, ih]

theorem fetch_articles_eq {D U : Type} (env : Env D U)
    (events : List XmlEvent) (articles : List (Article D U)) :
    fetch_articles env events articles
      = (runevents env events (initState D U articles)).articles := rfl

/-! ### Claims -/

/-- C1: for every well-formed event sequence — stray close events hitting
the initially empty stack, then the serialization of a well-formed forest,
then trailing events containing no close event (elements that open but
never close, text, ...) — `fetch_articles` emits exactly one `Article` per
item-boundary element whose matching open and close both occur
(`countItemsForest`), and the unterminated trailing part contributes zero
records: there is no implicit flush at end-of-input. -/
theorem fetch_articles_emission_count {D U : Type} (env : Env D U)
    (strays : List String) (f : List Node) (suffix : List XmlEvent)
    (hsuffix : ∀ e ∈ suffix, e.isEnd = false) :
    (fetch_articles env
        (strays.map XmlEvent.endTag ++ (serializeForest f ++ suffix))
        []).length
      = countItemsForest f := by
  rw [fetch_articles_eq, runevents_append,
    runevents_endTags_on_empty_stack env strays _ rfl, runevents_append,
    runevents_articles_of_no_end env suffix hsuffix]
  have h := runevents_serializeForest env f (initState D U [])
  simpa [initState] using h.2

theorem fetch_articles_emission_count_witness :
    (fetch_articles testEnv
        (List.map XmlEvent.endTag ["stray"] ++
          (serializeForest
              [Node.element "item" [Node.element "title" [Node.textNode "Hello"]]]
            ++ [XmlEvent.start "item"]))
        []).length
      = countItemsForest
          [Node.element "item" [Node.element "title" [Node.textNode "Hello"]]] :=
  fetch_articles_emission_count testEnv ["stray"]
    [Node.element "item" [Node.element "title" [Node.textNode "Hello"]]]
    [XmlEvent.start "item"] (by decide)

/-- C2: a text event and an embedded-text (CDATA) event are handled
identically; with an empty Element Context Stack they change nothing, and
with a non-empty stack they apply the Article Accumulator update using the
role at the top of the stack and the decoded content. -/
theorem text_and_cdata_events {D U : Type} (env : Env D U) (s : State D U)
    (t : String) :
    step env s (XmlEvent.cdata t) = step env s (XmlEvent.text t)
    ∧ (s.tag_stack = [] → step env s (XmlEvent.text t) = s)
    ∧ (∀ tag rest, s.tag_stack = tag :: rest →
        step env s (XmlEvent.text t)
          = { s with current_item := Article.update_field env s.current_item tag t }) :=
  ⟨step_cdata_eq_step_text env s t, step_text_nil env s t,
    fun tag rest h => step_text_cons env s t tag rest h⟩

theorem text_and_cdata_events_witness :
    step testEnv ⟨[Tag.Title], Article.new Nat Nat, []⟩ (XmlEvent.text "x")
      = ⟨[Tag.Title],
          Article.update_field testEnv (Article.new Nat Nat) Tag.Title "x", []⟩
    ∧ step testEnv ⟨[], Article.new Nat Nat, []⟩ (XmlEvent.text "x")
      = ⟨[], Article.new Nat Nat, []⟩ :=
  ⟨(text_and_cdata_events testEnv ⟨[Tag.Title], Article.new Nat Nat, []⟩ "x").2.2
      Tag.Title [] rfl,
   (text_and_cdata_events testEnv ⟨[], Article.new Nat Nat, []⟩ "x").2.1 rfl⟩

/-- C3: what the loop in `fetch_articles` actually does when the event
source reports that the input is not well-formed: the `Err` result is
matched by the catch-all `_ => ()` arm and silently discarded — the state
is unchanged, nothing propagates to the caller, and the loop keeps
consuming events, so an article appearing after the error is still
emitted.  (Articles emitted before the error do remain in the output, but
no failure is ever surfaced.) -/
theorem error_event_silently_ignored {D U : Type} (env : Env D U)
    (s : State D U) :
    step env s XmlEvent.errEvent = s
    ∧ fetch_articles env
        [XmlEvent.errEvent, XmlEvent.start "item", XmlEvent.endTag "item"]
        ([] : List (Article D U))
      = [Article.new D U] :=
  ⟨rfl, rfl⟩

/-- C4: within one item, a publish-date update whose text parses followed
by one whose text does not parse leaves `pub_date` holding the value from
the first text (converted to the local offset); an update whose text fails
to parse leaves the whole article — in particular a previously-set
`pub_date` — untouched. -/
theorem pub_date_first_valid_wins {D U : Type} (env : Env D U)
    (a : Article D U) (t₁ t₂ : String) (d : D)
    (h₁ : env.parse_from_rfc2822 t₁ = some d)
    (h₂ : env.parse_from_rfc2822 t₂ = none) :
    (Article.update_field env (Article.update_field env a Tag.PubDate t₁)
        Tag.PubDate t₂).pub_date
      = some (env.with_local_timezone d)
    ∧ Article.update_field env a Tag.PubDate t₂ = a := by
  constructor
  · simp [Article.update_field, h₁, h₂]
  · simp [Article.update_field, h₂]

theorem pub_date_first_valid_wins_witness :
    (Article.update_field testEnv
        (Article.update_field testEnv (Article.new Nat Nat) Tag.PubDate
          "Mon, 01 Jan 2024 00:00:00 +0000")
        Tag.PubDate "not a date").pub_date
      = some (testEnv.with_local_timezone 100)
    ∧ Article.update_field testEnv (Article.new Nat Nat) Tag.PubDate "not a date"
      = Article.new Nat Nat :=
  pub_date_first_valid_wins testEnv (Article.new Nat Nat)
    "Mon, 01 Jan 2024 00:00:00 +0000" "not a date" 100 (by decide) (by decide)

/-- C5: a title or description update overwrites that field with the given
text unconditionally (the rest of the article unchanged), for every text
value including the empty string; applying two title updates in sequence
leaves the second value (last-write-wins). -/
theorem title_description_overwrite {D U : Type} (env : Env D U)
    (a : Article D U) (t t₁ t₂ : String) :
    Article.update_field env a Tag.Title t = { a with title := t }
    ∧ Article.update_field env a Tag.Description t = { a with description := t }
    ∧ (Article.update_field env (Article.update_field env a Tag.Title t₁)
        Tag.Title t₂).title = t₂ :=
  ⟨rfl, rfl, rfl⟩

/-- C6: a link update sets `link` to the parsed URL exactly when
`url_parse` succeeds on the text, and leaves the article — in particular a
previously-set link — untouched when it fails. -/
theorem link_update_iff {D U : Type} (env : Env D U) (a : Article D U)
    (t : String) :
    (∀ u, env.url_parse t = some u →
      Article.update_field env a Tag.Link t = { a with link := some u })
    ∧ (env.url_parse t = none → Article.update_field env a Tag.Link t = a) := by
  constructor
  · intro u hu
    simp [Article.update_field, hu]
  · intro hn
    simp [Article.update_field, hn]

theorem link_update_iff_witness :
    Article.update_field testEnv (Article.new Nat Nat) Tag.Link
        "https://example.com/a"
      = { Article.new Nat Nat with link := some 7 }
    ∧ Article.update_field testEnv { Article.new Nat Nat with link := some 7 }
        Tag.Link "not a url"
      = { Article.new Nat Nat with link := some 7 } :=
  ⟨(link_update_iff testEnv (Article.new Nat Nat) "https://example.com/a").1 7
      (by decide),
   (link_update_iff testEnv { Article.new Nat Nat with link := some 7 }
      "not a url").2 (by decide)⟩

/-- C7: the Field Router `Tag::from_str` is total (its `Err` type is never
produced) and matches exactly and case-sensitively against the five fixed
literal names, mapping every other string to `Other` carrying that
string. -/
theorem tag_from_str_exact_match (s : String) :
    (Tag.from_str s = Tag.Item ↔ s = "item")
    ∧ (Tag.from_str s = Tag.Title ↔ s = "title")
    ∧ (Tag.from_str s = Tag.Description ↔ s = "description")
    ∧ (Tag.from_str s = Tag.PubDate ↔ s = "pubDate")
    ∧ (Tag.from_str s = Tag.Link ↔ s = "link")
    ∧ (s ≠ "item" → s ≠ "title" → s ≠ "description" → s ≠ "pubDate" →
        s ≠ "link" → Tag.from_str s = Tag.Other s) := by
  unfold Tag.from_str
  split <;> simp_all

theorem tag_from_str_exact_match_witness :
    Tag.from_str "Item" = Tag.Other "Item" :=
  (tag_from_str_exact_match "Item").2.2.2.2.2 (by decide) (by decide)
    (by decide) (by decide) (by decide)

/-- C8: a close event arriving while the Element Context Stack is empty is
a no-op (the stack, modelled as a list, can never go below depth zero),
and a document with a stray closing tag that matches no open tag is parsed
to completion without failure, with the unaffected item still emitted. -/
theorem empty_stack_pop_noop {D U : Type} (env : Env D U) (s : State D U)
    (name : String) (h : s.tag_stack = []) :
    step env s (XmlEvent.endTag name) = s
    ∧ fetch_articles env
        [XmlEvent.endTag "stray", XmlEvent.start "item",
          XmlEvent.start "title", XmlEvent.text "Hello",
          XmlEvent.endTag "title", XmlEvent.endTag "item"]
        ([] : List (Article D U))
      = [{ title := "Hello", description := "", pub_date := none,
            link := none }] :=
  ⟨step_endTag_nil env s name h, rfl⟩

theorem empty_stack_pop_noop_witness :
    step testEnv (initState Nat Nat []) (XmlEvent.endTag "stray")
      = initState Nat Nat []
    ∧ fetch_articles testEnv
        [XmlEvent.endTag "stray", XmlEvent.start "item",
          XmlEvent.start "title", XmlEvent.text "Hello",
          XmlEvent.endTag "title", XmlEvent.endTag "item"]
        ([] : List (Article Nat Nat))
      = [{ title := "Hello", description := "", pub_date := none,
            link := none }] :=
  empty_stack_pop_noop testEnv (initState Nat Nat []) "stray" rfl

/-- C9: what the `add` branch actually does on a fresh database: it
creates the `feeds` table without a `PRIMARY KEY`, so adding the same URL
twice stores two rows — the store state after two adds differs from the
state after one — whereas with the table created by `read_feeds` (with
`PRIMARY KEY`) the duplicate `INSERT` fails with error code 19, which the
`add` branch swallows, making the duplicate add the intended idempotent
no-op. -/
theorem duplicate_add_not_idempotent :
    addCommand FeedsDb.fresh "https://example.com"
      = some ⟨some false, ["https://example.com"]⟩
    ∧ addCommand ⟨some false, ["https://example.com"]⟩ "https://example.com"
      = some ⟨some false, ["https://example.com", "https://example.com"]⟩
    ∧ (⟨some false, ["https://example.com", "https://example.com"]⟩ : FeedsDb)
      ≠ ⟨some false, ["https://example.com"]⟩
    ∧ (read_feeds FeedsDb.fresh).1 = ⟨some true, []⟩
    ∧ addCommand ⟨some true, ["https://example.com"]⟩ "https://example.com"
      = some ⟨some true, ["https://example.com"]⟩ := by
  decide

/-- C10: the loop handles a close event without inspecting the name the
event carries (`Ok(Event::End(_))`): the step on a close event is the same
function of the state for every name, and in particular a close tag whose
name differs from the open element on top of the stack still pops it —
closing an open item-boundary with a mismatched name emits the current
accumulator. -/
theorem close_event_name_agnostic {D U : Type} (env : Env D U)
    (s : State D U) (n₁ n₂ : String) :
    step env s (XmlEvent.endTag n₁) = step env s (XmlEvent.endTag n₂)
    ∧ fetch_articles env [XmlEvent.start "item", XmlEvent.endTag "mismatched"]
        ([] : List (Article D U))
      = [Article.new D U] :=
  ⟨rfl, rfl⟩

end RssReader
